import Mathlib

/-!
Verification development for the godot-rust project-utils crate.

The crate has two subsystems:
  - the declaration scanner (src/scan.rs): walks parsed Rust source files and
    collects the identifiers of struct and enum declarations carrying
    `#[derive(... NativeClass ...)]`, aggregating structural errors;
  - the resource generator (src/generate.rs): resolves the project layout,
    computes relative-or-absolute paths, and writes `.gdnlib` and `.gdns`
    descriptor files idempotently.

This file gives a shallow embedding of both subsystems and settles the frozen
claims about them.  External collaborators (the syn parser, the pathdiff and
path_slash crates, the filesystem) are modelled at their interfaces:
  - a parsed file is a tree of items (structs, enums, containers such as
    modules whose children are visited);
  - a syn error is a non-empty list of (span, message) pairs, and
    syn combine appends the messages of the absorbed error;
  - pathdiff diff_paths is embedded componentwise for canonicalized paths;
  - path_slash to_slash_lossy renders a path with forward slashes;
  - the filesystem is a shadowing association list from paths to contents.
-/

/-- One message of a syn error: the span of the offending token and its text. -/
structure SynMsg where
  span : Nat
  msg : String
deriving DecidableEq, Repr

/-- A syn error value: the non-empty list of its messages.  The syn combine
operation appends the messages of the absorbed error, so combining is list
append. -/
abbrev SynError := List SynMsg

/-- A token tree at the granularity the scanner inspects: a parenthesized
group (carrying its token stream), an identifier, or anything else (punct or
literal).  Each token carries a span so that errors at distinct tokens are
distinct values, as they are for syn. -/
inductive TokenTree where
  | group (span : Nat) (stream : List TokenTree) : TokenTree
  | ident (span : Nat) (name : String) : TokenTree
  | other (span : Nat) : TokenTree
deriving Repr

/-- The span of a token tree. -/
def TokenTree.span : TokenTree → Nat
  | .group s _ => s
  | .ident s _ => s
  | .other s => s

/-- Whether a token tree is a parenthesized group. -/
def TokenTree.isGroup : TokenTree → Bool
  | .group _ _ => true
  | _ => false

/-- An attribute as the scanner sees it: its path (compared against the
literal `derive`) and its payload token trees. -/
structure Attribute where
  path : String
  tokens : List TokenTree
deriving Repr

/-- An item of a parsed source file, at the granularity the visitor
distinguishes: a struct declaration, an enum declaration, or a container
(module, function body, ...) whose child items the visitor also traverses. -/
inductive Item where
  | strukt (ident : String) (attrs : List Attribute) : Item
  | enum (ident : String) (attrs : List Attribute) : Item
  | container (items : List Item) : Item
deriving Repr

/-- A parsed source file is its list of top-level items. -/
abbrev SynFile := List Item

/-- Does a token stream (the inside of a derive group) contain the literal
identifier NativeClass?  Embeds the inner loop of derives_nativeclass, which
looks only at top-level Ident tokens of the group stream. -/
def groupContainsNativeClass (stream : List TokenTree) : Bool :=
  stream.any fun tt =>
    match tt with
    | .ident _ n => n == "NativeClass"
    | _ => false

/-- The loop over the payload tokens of one derive attribute
(scan.rs lines 89-104): a group token may set the result to true; any
non-group token is a structural error at that token. -/
def scanTokens (res : Bool) : List TokenTree → Except SynError Bool
  | [] => .ok res
  | t :: ts =>
    match t with
    | .group _ s => scanTokens (res || groupContainsNativeClass s) ts
    | _ => .error [⟨t.span, "Unexpected #[derive attribute]"⟩]

/-- The loop over all attributes of a declaration (scan.rs lines 84-105):
attributes whose path is not literally derive are skipped; the running
result threads through the derive attributes. -/
def dnGo (res : Bool) : List Attribute → Except SynError Bool
  | [] => .ok res
  | a :: rest =>
    if a.path = "derive" then
      match scanTokens res a.tokens with
      | .ok r => dnGo r rest
      | .error e => .error e
    else dnGo res rest

/-- Embedding of derives_nativeclass (scan.rs lines 81-108). -/
def derivesNativeclass (attrs : List Attribute) : Except SynError Bool :=
  dnGo false attrs

/-- The visitor state: the set of discovered class identifiers and the list
of recorded structural errors, in recording order. -/
abbrev VState := Finset String × List SynError

/-- One visitor step on a struct or enum declaration
(scan.rs lines 116-140): an error is pushed at the end of the error list, a
positive match inserts the identifier, a negative match changes nothing. -/
def stepDecl (st : VState) (ident : String) (attrs : List Attribute) : VState :=
  match derivesNativeclass attrs with
  | .error e => (st.1, st.2 ++ [e])
  | .ok true => (insert ident st.1, st.2)
  | .ok false => st

/-- The visitor traversal over a list of items (syn visit_file together with
the overridden visit_item_struct and visit_item_enum): declarations are
classified in traversal order and container items are traversed into. -/
def visitItems (st : VState) : List Item → VState
  | [] => st
  | .strukt n attrs :: rest => visitItems (stepDecl st n attrs) rest
  | .enum n attrs :: rest => visitItems (stepDecl st n attrs) rest
  | .container inner :: rest => visitItems (visitItems st inner) rest

/-- The result assembly of find_classes (scan.rs lines 150-160): with no
recorded errors return the class set, otherwise pop the last recorded error
and absorb every earlier recorded error into it, in order. -/
def mkResult (st : VState) : Except SynError (Finset String) :=
  match st.2.getLast? with
  | none => .ok st.1
  | some last => .error (last ++ st.2.dropLast.flatten)

/-- Embedding of find_classes (scan.rs lines 80-161): run the visitor over
the file, then assemble the result. -/
def findClasses (file : SynFile) : Except SynError (Finset String) :=
  mkResult (visitItems (∅, []) file)

/-- Whether a payload token is a parenthesized group containing the literal
identifier NativeClass. -/
def isMarkerGroup : TokenTree → Bool
  | .group _ s => groupContainsNativeClass s
  | _ => false

/-- Whether an attribute is a derive attribute whose token list contains the
marker. -/
def attrMarked (a : Attribute) : Bool :=
  a.path == "derive" && a.tokens.any isMarkerGroup

/-- Specification-level marker test: does this attribute list contain a
derive attribute one of whose parenthesized groups contains the literal
identifier NativeClass? -/
def declMarked (attrs : List Attribute) : Bool :=
  attrs.any attrMarked

/-- Specification-level predicate: the item list contains, at any nesting
depth, a struct or enum declaration named n whose derive attributes carry the
NativeClass marker. -/
def markedItems : List Item → String → Bool
  | [], _ => false
  | .strukt m attrs :: rest, n => (m == n && declMarked attrs) || markedItems rest n
  | .enum m attrs :: rest, n => (m == n && declMarked attrs) || markedItems rest n
  | .container inner :: rest, n => markedItems inner n || markedItems rest n

/-- The boolean the visitor acts on for one declaration: true exactly when
derives_nativeclass returns Ok(true). -/
def dnOkTrue (attrs : List Attribute) : Bool :=
  match derivesNativeclass attrs with
  | .ok b => b
  | .error _ => false

/-- Whether derives_nativeclass errors on this attribute list. -/
def dnErrs (attrs : List Attribute) : List SynError :=
  match derivesNativeclass attrs with
  | .ok _ => []
  | .error e => [e]

/-- The item list contains, at any depth, a declaration named n on which
derives_nativeclass returns Ok(true). -/
def itemsOkTrue : List Item → String → Bool
  | [], _ => false
  | .strukt m attrs :: rest, n => (m == n && dnOkTrue attrs) || itemsOkTrue rest n
  | .enum m attrs :: rest, n => (m == n && dnOkTrue attrs) || itemsOkTrue rest n
  | .container inner :: rest, n => itemsOkTrue inner n || itemsOkTrue rest n

/-- The structural errors the visitor records on an item list, in traversal
order. -/
def itemsErrs : List Item → List SynError
  | [] => []
  | .strukt _ attrs :: rest => dnErrs attrs ++ itemsErrs rest
  | .enum _ attrs :: rest => dnErrs attrs ++ itemsErrs rest
  | .container inner :: rest => itemsErrs inner ++ itemsErrs rest

/-- A candidate source file as scan_crate consumes it, abstracting the two
external steps: reading it can fail with an I/O error (identified by a
numeric id), parsing it can fail with a syn error, or it parses to a tree. -/
inductive SourceFile where
  | readErr (e : Nat) : SourceFile
  | parseErr (e : SynError) : SourceFile
  | parsed (file : SynFile) : SourceFile

/-- Embedding of ScanError (scan.rs lines 49-56).  Directory-walk errors are
identified by a numeric id, like I/O errors. -/
inductive ScanError where
  | walkDir (e : Nat) : ScanError
  | readFile (e : Nat) : ScanError
  | parse (e : SynError) : ScanError
deriving DecidableEq, Repr

/-- The per-file step of scan_crate (scan.rs lines 28-34): read, parse, then
find_classes, each failure wrapped in the matching ScanError constructor. -/
def processFile : SourceFile → Except ScanError (Finset String)
  | .readErr e => .error (.readFile e)
  | .parseErr e => .error (.parse e)
  | .parsed f =>
    match findClasses f with
    | .ok s => .ok s
    | .error e => .error (.parse e)

/-- The try_fold of scan_crate (scan.rs lines 26-42): files are processed in
order over a lazily mapped iterator, the accumulator unions each file's
classes, and the first error short-circuits the fold. -/
def scanFilesAux (acc : Finset String) : List SourceFile → Except ScanError (Finset String)
  | [] => .ok acc
  | f :: fs =>
    match processFile f with
    | .error e => .error e
    | .ok cs => scanFilesAux (acc ∪ cs) fs

/-- The per-file portion of scan_crate, over an already-walked file list. -/
def scanFiles (files : List SourceFile) : Except ScanError (Finset String) :=
  scanFilesAux ∅ files

/-- A filesystem path at the granularity Rust PathBuf manipulates it: whether
it is absolute, and its list of normal components. -/
structure RPath where
  abs : Bool
  comps : List String
deriving DecidableEq, Repr

/-- PathBuf join with a single normal component. -/
def RPath.join (p : RPath) (c : String) : RPath :=
  ⟨p.abs, p.comps ++ [c]⟩

/-- PathBuf join with a relative multi-component path. -/
def RPath.joins (p : RPath) (cs : List String) : RPath :=
  ⟨p.abs, p.comps ++ cs⟩

/-- Embedding of path_slash to_slash_lossy: render the path with forward
slashes between components, whatever the host separator is. -/
def toSlashLossy (p : RPath) : String :=
  (if p.abs then "/" else "") ++ String.intercalate "/" p.comps

/-- Componentwise core of the external pathdiff diff_paths for canonicalized
(dot-free) component lists: strip the common prefix, then one parent-dir
step per remaining component of the base, followed by the remaining
components of the path. -/
def diffComps : List String → List String → List String
  | ps, [] => ps
  | [], _ :: bs => ".." :: diffComps [] bs
  | p :: ps, b :: bs =>
    if p = b then diffComps ps bs
    else List.replicate (bs.length + 1) ".." ++ p :: ps

/-- Embedding of pathdiff diff_paths on canonicalized paths: mixed
absoluteness short-circuits exactly as in the library, and equal
absoluteness uses the componentwise difference. -/
def diffPaths (path base : RPath) : Option RPath :=
  if path.abs = base.abs then some ⟨false, diffComps path.comps base.comps⟩
  else if path.abs then some path
  else none

/-- Rust Path starts_with applied to the literal "../": true exactly when
the path is relative and its first component is a parent-dir step. -/
def startsWithParentDir (p : RPath) : Bool :=
  !p.abs && p.comps.head? == some ".."

/-- The prefix/path decision of Builder::build (generate.rs lines 151-165 and
177-191, identical logic at both places): diff against the project dir; a
difference that begins with a parent-dir step keeps the absolute original
with an empty prefix, otherwise the res:// prefix pairs with the relative
difference. -/
def relativize (base against : RPath) : Option (String × RPath) :=
  match diffPaths base against with
  | none => none
  | some rel =>
    if startsWithParentDir rel then some ("", base)
    else some ("res://", rel)

/-- Embedding of BuildMode (generate.rs lines 6-9). -/
inductive BuildMode where
  | Debug : BuildMode
  | Release : BuildMode
deriving DecidableEq, Repr

/-- The profile subdirectory of a build mode (generate.rs lines 221-224). -/
def modeDir : BuildMode → String
  | .Debug => "debug"
  | .Release => "release"

/-- Embedding of the Binaries struct (generate.rs lines 208-218). -/
structure Binaries where
  x11 : RPath
  osx : RPath
  windows : RPath
  android_aarch64 : RPath
  android_armv7 : RPath
  android_x86 : RPath
  android_x86_64 : RPath
deriving DecidableEq, Repr

/-- Embedding of the Rust expression name.replace("-", "_"): a
single-character substring replacement is the characterwise map over the
character data of the string. -/
def replaceHyphens (s : String) : String :=
  ⟨s.data.map fun c => if c = '-' then '_' else c⟩

/-- Embedding of common_binary_outputs (generate.rs lines 220-252). -/
def commonBinaryOutputs (target : RPath) (mode : BuildMode) (name : String) : Binaries :=
  let modePath := modeDir mode
  let name := replaceHyphens name
  { x11 := (target.join modePath).join ("lib" ++ name ++ ".so")
    osx := (target.join modePath).join ("lib" ++ name ++ ".dylib")
    windows := (target.join modePath).join (name ++ ".dll")
    android_armv7 :=
      ((target.join "armv7-linux-androideabi").join modePath).join ("lib" ++ name ++ ".so")
    android_aarch64 :=
      ((target.join "aarch64-linux-android").join modePath).join ("lib" ++ name ++ ".so")
    android_x86 :=
      ((target.join "i686-linux-android").join modePath).join ("lib" ++ name ++ ".so")
    android_x86_64 :=
      ((target.join "x86_64-linux-android").join modePath).join ("lib" ++ name ++ ".so") }

/-- Embedding of generate_gdnlib (generate.rs lines 254-289). -/
def generateGdnlib (pathPre : String) (binaries : Binaries) : String :=
  "[entry]\nAndroid.armeabi-v7a=\"" ++ pathPre ++ toSlashLossy binaries.android_armv7 ++
  "\"\nAndroid.arm64-v8a=\"" ++ pathPre ++ toSlashLossy binaries.android_aarch64 ++
  "\"\nAndroid.x86=\"" ++ pathPre ++ toSlashLossy binaries.android_x86 ++
  "\"\nAndroid.x86_64=\"" ++ pathPre ++ toSlashLossy binaries.android_x86_64 ++
  "\"\nX11.64=\"" ++ pathPre ++ toSlashLossy binaries.x11 ++
  "\"\nOSX.64=\"" ++ pathPre ++ toSlashLossy binaries.osx ++
  "\"\nWindows.64=\"" ++ pathPre ++ toSlashLossy binaries.windows ++
  "\"\n\n[dependencies]\n\nAndroid.armeabi-v7a=[  ]\nAndroid.arm64-v8a=[  ]\n" ++
  "Android.x86=[  ]\nAndroid.x86_64=[  ]\nX11.64=[  ]\nOSX.64=[  ]\n\n[general]\n\n" ++
  "singleton=false\nload_once=true\nsymbol_prefix=\"godot_\"\nreloadable=true"

/-- Embedding of generate_gdns (generate.rs lines 291-306). -/
def generateGdns (pathPre : String) (gdnlibPath : RPath) (name : String) : String :=
  "[gd_resource type=\"NativeScript\" load_steps=2 format=2]\n\n[ext_resource path=\"" ++
  pathPre ++ toSlashLossy gdnlibPath ++
  "\" type=\"GDNativeLibrary\" id=1]\n\n[resource]\nclass_name = \"" ++ name ++
  "\"\nscript_class_name = \"" ++ name ++ "\"\nlibrary = ExtResource( 1 )\n"

/-- The filesystem as the generator observes it: a shadowing association
list from paths to file contents (directories are implicit; directory
creation does not change any file content). -/
abbrev FS := List (RPath × String)

/-- Read the newest content written at a path. -/
def FS.readFile : FS → RPath → Option String
  | [], _ => none
  | (q, c) :: rest, p => if q = p then some c else FS.readFile rest p

/-- The existence test used before each write: path.exists and is a file. -/
def FS.existsFile (fs : FS) (p : RPath) : Bool :=
  (fs.readFile p).isSome

/-- std::fs::write: create or truncate the file at the path. -/
def FS.writeFile (fs : FS) (p : RPath) (c : String) : FS :=
  (p, c) :: fs

/-- The class-descriptor loop of Builder::build (generate.rs lines 193-202):
for each class, the descriptor path is output-dir/name.gdns, and the file is
rendered and written only when no file exists there yet. -/
def writeClassFiles (outputDir : RPath) (pathPre : String) (manifest : RPath) :
    FS → List String → FS
  | fs, [] => fs
  | fs, n :: ns =>
    let p := outputDir.join (n ++ ".gdns")
    let fs1 := if fs.existsFile p then fs else fs.writeFile p (generateGdns pathPre manifest n)
    writeClassFiles outputDir pathPre manifest fs1 ns

/-- Embedding of the Builder configuration record (generate.rs lines 14-20). -/
structure Builder where
  godot_project_dir : Option RPath
  godot_resource_output_dir : Option RPath
  target_dir : Option RPath
  lib_name : Option String
  build_mode : Option BuildMode

/-- The ambient environment Builder::build consults: the canonicalization
oracle of the filesystem and the environment variables read as fallbacks.
The variables holding paths are modelled as already-parsed PathBufs. -/
structure Env where
  canonicalize : RPath → Option RPath
  cargoPkgName : Option String
  cargoTargetDir : Option RPath
  outDir : Option RPath
  profile : Option String

/-- The panics of Builder::build, one per expect site (generate.rs lines
108, 112, 131, 142, 152 and 178; the two relative-path expects share one
message in the source and one constructor here). -/
inductive BuildPanic where
  | libNameMissing : BuildPanic
  | projectDirMissing : BuildPanic
  | targetDirMissing : BuildPanic
  | buildModeMissing : BuildPanic
  | relPathPanic : BuildPanic
deriving DecidableEq, Repr

/-- lib_name resolution (generate.rs lines 105-108): the configured name,
else CARGO_PKG_NAME, else panic. -/
def resolveLibName (b : Builder) (env : Env) : Except BuildPanic String :=
  match b.lib_name with
  | some n => .ok n
  | none =>
    match env.cargoPkgName with
    | some n => .ok n
    | none => .error .libNameMissing

/-- godot_project_dir resolution (generate.rs lines 109-112): canonicalize
the configured dir; an unset dir or a canonicalization failure panics. -/
def resolveProjectDir (b : Builder) (env : Env) : Except BuildPanic RPath :=
  match b.godot_project_dir.bind env.canonicalize with
  | some p => .ok p
  | none => .error .projectDirMissing

/-- godot_resource_output_dir resolution (generate.rs lines 113-116): the
canonicalized configured dir, with project-dir/native as the fallback when
the dir is unset or fails to canonicalize. -/
def resolveOutputDir (b : Builder) (env : Env) (projectDir : RPath) : RPath :=
  (b.godot_resource_output_dir.bind env.canonicalize).getD (projectDir.join "native")

/-- target_dir resolution (generate.rs lines 117-131): the canonicalized
configured dir, else the canonicalized CARGO_TARGET_DIR, else OUT_DIR joined
with four parent-dir steps and canonicalized, else panic. -/
def resolveTargetDir (b : Builder) (env : Env) : Except BuildPanic RPath :=
  match b.target_dir.bind env.canonicalize with
  | some p => .ok p
  | none =>
    match env.cargoTargetDir.bind env.canonicalize with
    | some p => .ok p
    | none =>
      match env.outDir.bind (fun o => env.canonicalize (o.joins ["..", "..", "..", ".."])) with
      | some p => .ok p
      | none => .error .targetDirMissing

/-- build_mode resolution (generate.rs lines 132-142): the configured mode,
else the PROFILE variable mapped over release/debug, else panic. -/
def resolveBuildMode (b : Builder) (env : Env) : Except BuildPanic BuildMode :=
  match b.build_mode with
  | some m => .ok m
  | none =>
    match env.profile with
    | some "release" => .ok BuildMode.Release
    | some "debug" => .ok BuildMode.Debug
    | _ => .error .buildModeMissing

/-- The fully resolved project layout Builder::build works with. -/
structure Resolved where
  libName : String
  projectDir : RPath
  outputDir : RPath
  targetDir : RPath
  mode : BuildMode
deriving DecidableEq, Repr

/-- The configuration-resolution phase of Builder::build (generate.rs lines
105-142), in source order. -/
def resolveConfig (b : Builder) (env : Env) : Except BuildPanic Resolved :=
  match resolveLibName b env with
  | .error e => .error e
  | .ok libName =>
    match resolveProjectDir b env with
    | .error e => .error e
    | .ok projectDir =>
      let outputDir := resolveOutputDir b env projectDir
      match resolveTargetDir b env with
      | .error e => .error e
      | .ok targetDir =>
        match resolveBuildMode b env with
        | .error e => .error e
        | .ok mode => .ok ⟨libName, projectDir, outputDir, targetDir, mode⟩

/-- The effectful phase of Builder::build (generate.rs lines 144-204): write
the manifest if absent, then each missing class descriptor, using the
relativized manifest reference. -/
def buildCore (r : Resolved) (classes : List String) (fs : FS) : Except BuildPanic FS :=
  let gdnlibPath := r.outputDir.join (r.libName ++ ".gdnlib")
  match relativize r.targetDir r.projectDir with
  | none => .error .relPathPanic
  | some pr =>
    let binaries := commonBinaryOutputs pr.2 r.mode r.libName
    let fs1 :=
      if fs.existsFile gdnlibPath then fs
      else fs.writeFile gdnlibPath (generateGdnlib pr.1 binaries)
    match relativize gdnlibPath r.projectDir with
    | none => .error .relPathPanic
    | some pr2 => .ok (writeClassFiles r.outputDir pr2.1 pr2.2 fs1 classes)

/-- Embedding of Builder::build (generate.rs lines 104-205): resolve the
configuration, then run the write phase.  File writes themselves are
modelled as always succeeding. -/
def buildFull (b : Builder) (env : Env) (classes : List String) (fs : FS) :
    Except BuildPanic FS :=
  match resolveConfig b env with
  | .error e => .error e
  | .ok r => buildCore r classes fs

instance {ε α : Type} [DecidableEq ε] [DecidableEq α] : DecidableEq (Except ε α) := fun x y =>
  match x, y with
  | .ok a, .ok b =>
    if h : a = b then .isTrue (by rw [h]) else .isFalse (by intro hc; cases hc; exact h rfl)
  | .error a, .error b =>
    if h : a = b then .isTrue (by rw [h]) else .isFalse (by intro hc; cases hc; exact h rfl)
  | .ok _, .error _ => .isFalse (by intro hc; cases hc)
  | .error _, .ok _ => .isFalse (by intro hc; cases hc)

/-- The error message of the scanner for a malformed derive payload. -/
def umsg : String := "Unexpected #[derive attribute]"

/-- A well-formed derive attribute carrying the marker. -/
def wAttr : Attribute := ⟨"derive", [TokenTree.group 0 [TokenTree.ident 1 "NativeClass"]]⟩

/-- A well-formed derive attribute without the marker. -/
def cloneAttr : Attribute := ⟨"derive", [TokenTree.group 2 [TokenTree.ident 3 "Clone"]]⟩

/-- A derive attribute whose payload token (at span 1) is not a group. -/
def badAttr1 : Attribute := ⟨"derive", [TokenTree.other 1]⟩

/-- A derive attribute whose payload token (at span 2) is not a group. -/
def badAttr2 : Attribute := ⟨"derive", [TokenTree.other 2]⟩

/-- A sample file: a marked struct, and a module holding a marked enum and an
unmarked struct with an unrelated derive list. -/
def wFile : SynFile :=
  [Item.strukt "Foo" [wAttr],
   Item.container [Item.enum "Bar" [wAttr], Item.strukt "Baz" [cloneAttr]]]

/-- A source file that scans successfully to the single class WA. -/
def fOkA : SourceFile := .parsed [Item.strukt "WA" [wAttr]]

/-- A source file that scans successfully to the single class WB. -/
def fOkB : SourceFile := .parsed [Item.enum "WB" [wAttr]]

/-- A source file with one malformed declaration (error span 1). -/
def fBad1 : SourceFile := .parsed [Item.strukt "A" [badAttr1]]

/-- A source file with one malformed declaration (error span 2). -/
def fBad2 : SourceFile := .parsed [Item.strukt "B" [badAttr2]]

/-- A file with two malformed declarations, recorded in traversal order. -/
def c7File : SynFile := [Item.strukt "A" [badAttr1], Item.strukt "B" [badAttr2]]

/-- An environment whose canonicalization oracle succeeds on every path. -/
def wEnv : Env := ⟨fun p => some p, none, none, none, none⟩

/-- A fully configured builder whose paths all live under the project root. -/
def wBuilder : Builder :=
  ⟨some ⟨true, ["proj"]⟩, some ⟨true, ["proj", "native"]⟩,
   some ⟨true, ["proj", "target"]⟩, some "demo", some BuildMode.Debug⟩

/-- The filesystem produced by one build run of wBuilder on an empty disk. -/
def wFS : FS :=
  match buildFull wBuilder wEnv ["Test"] [] with
  | .ok f => f
  | .error _ => []

/-- A resolved layout whose resource output directory lies outside the
project root. -/
def c6Resolved : Resolved :=
  ⟨"d", ⟨true, ["proj"]⟩, ⟨true, ["out"]⟩, ⟨true, ["proj", "target"]⟩, BuildMode.Debug⟩

/-- The filesystem produced by building c6Resolved on an empty disk. -/
def c6FS : FS :=
  match buildCore c6Resolved ["T"] [] with
  | .ok f => f
  | .error _ => []

/-- A resolved layout entirely under the project root. -/
def c6ResolvedIn : Resolved :=
  ⟨"d", ⟨true, ["proj"]⟩, ⟨true, ["proj", "native"]⟩, ⟨true, ["proj", "target"]⟩,
   BuildMode.Debug⟩

/-- An environment whose canonicalization oracle fails exactly on the path
the builder configures as its resource output directory. -/
def c8Env : Env :=
  ⟨fun p => if p = ⟨true, ["cfg", "out"]⟩ then none else some p, none, none, none, none⟩

/-- A fully configured builder whose resource output directory is the path
on which c8Env fails to canonicalize. -/
def c8Builder : Builder :=
  ⟨some ⟨true, ["proj"]⟩, some ⟨true, ["cfg", "out"]⟩, some ⟨true, ["proj", "target"]⟩,
   some "d", some BuildMode.Debug⟩

/-- The filesystem produced by building c8Builder under c8Env. -/
def c8FS : FS :=
  match buildFull c8Builder c8Env [] [] with
  | .ok f => f
  | .error _ => []

/-- An environment whose canonicalization oracle fails on every path and
which provides no fallback variables. -/
def c8EnvAll : Env := ⟨fun _ => none, none, none, none, none⟩

theorem scanTokens_ok_char (ts : List TokenTree) :
    ∀ res b, scanTokens res ts = .ok b → b = (res || ts.any isMarkerGroup) := by
  induction ts with
  | nil =>
    intro res b h
    simp [scanTokens] at h
    simp [h]
  | cons t ts ih =>
    intro res b h
    cases t with
    | group s stream =>
      have := ih (res || groupContainsNativeClass stream) b h
      simp [this, isMarkerGroup, List.any_cons, Bool.or_assoc]
    | ident s n => simp [scanTokens] at h
    | other s => simp [scanTokens] at h

theorem dnGo_ok_char (attrs : List Attribute) :
    ∀ res b, dnGo res attrs = .ok b → b = (res || declMarked attrs) := by
  induction attrs with
  | nil =>
    intro res b h
    simp [dnGo] at h
    simp [h, declMarked]
  | cons a rest ih =>
    intro res b h
    by_cases hp : a.path = "derive"
    · rw [dnGo, if_pos hp] at h
      cases hs : scanTokens res a.tokens with
      | ok r =>
        rw [hs] at h
        have hr := scanTokens_ok_char a.tokens res r hs
        have hb := ih r b h
        simp [hb, hr, declMarked, List.any_cons, attrMarked, hp, Bool.or_assoc]
      | error e => rw [hs] at h; exact absurd h (by simp)
    · rw [dnGo, if_neg hp] at h
      have hb := ih res b h
      have hf : (a.path == "derive") = false := by simpa using hp
      simp [hb, declMarked, List.any_cons, attrMarked, hf]

theorem dn_ok_marked (attrs : List Attribute) (b : Bool)
    (h : derivesNativeclass attrs = .ok b) : b = declMarked attrs := by
  simpa using dnGo_ok_char attrs false b h

theorem stepDecl_eq (st : VState) (n : String) (attrs : List Attribute) :
    stepDecl st n attrs =
      ((if dnOkTrue attrs then insert n st.1 else st.1), st.2 ++ dnErrs attrs) := by
  unfold stepDecl dnOkTrue dnErrs
  cases h : derivesNativeclass attrs with
  | ok b => cases b <;> simp
  | error e => simp

theorem visitItems_snd : ∀ (st : VState) (items : List Item),
    (visitItems st items).2 = st.2 ++ itemsErrs items := by
  intro st items
  induction st, items using visitItems.induct with
  | case1 st => simp [visitItems, itemsErrs]
  | case2 st n attrs rest ih =>
    rw [visitItems, ih, stepDecl_eq]
    simp [itemsErrs]
  | case3 st n attrs rest ih =>
    rw [visitItems, ih, stepDecl_eq]
    simp [itemsErrs]
  | case4 st inner rest ih1 ih2 =>
    rw [visitItems, ih2, ih1]
    simp [itemsErrs]

theorem visitItems_fst_mem : ∀ (st : VState) (items : List Item) (n : String),
    n ∈ (visitItems st items).1 ↔ (n ∈ st.1 ∨ itemsOkTrue items n = true) := by
  intro st items
  induction st, items using visitItems.induct with
  | case1 st => intro n; simp [visitItems, itemsOkTrue]
  | case2 st m attrs rest ih =>
    intro n
    rw [visitItems, ih, stepDecl_eq]
    cases hb : dnOkTrue attrs <;>
      (simp [hb, itemsOkTrue, Finset.mem_insert]; all_goals aesop)
  | case3 st m attrs rest ih =>
    intro n
    rw [visitItems, ih, stepDecl_eq]
    cases hb : dnOkTrue attrs <;>
      (simp [hb, itemsOkTrue, Finset.mem_insert]; all_goals aesop)
  | case4 st inner rest ih1 ih2 =>
    intro n
    rw [visitItems, ih2, ih1]
    simp [itemsOkTrue, or_assoc]

theorem dnErrs_nil_iff (attrs : List Attribute) :
    dnErrs attrs = [] ↔ ∃ b, derivesNativeclass attrs = .ok b := by
  unfold dnErrs
  cases h : derivesNativeclass attrs <;> simp

theorem itemsOkTrue_eq_marked : ∀ (items : List Item), itemsErrs items = [] →
    ∀ n, itemsOkTrue items n = markedItems items n := by
  intro items
  induction items using itemsErrs.induct with
  | case1 => intro _ n; simp [itemsOkTrue, markedItems]
  | case2 m attrs rest ih =>
    intro h n
    rw [itemsErrs] at h
    rcases List.append_eq_nil.mp h with ⟨h1, h2⟩
    rcases (dnErrs_nil_iff attrs).mp h1 with ⟨b, hb⟩
    have hm := dn_ok_marked attrs b hb
    rw [itemsOkTrue, markedItems, ih h2 n]
    unfold dnOkTrue
    rw [hb, ← hm]
  | case3 m attrs rest ih =>
    intro h n
    rw [itemsErrs] at h
    rcases List.append_eq_nil.mp h with ⟨h1, h2⟩
    rcases (dnErrs_nil_iff attrs).mp h1 with ⟨b, hb⟩
    have hm := dn_ok_marked attrs b hb
    rw [itemsOkTrue, markedItems, ih h2 n]
    unfold dnOkTrue
    rw [hb, ← hm]
  | case4 inner rest ih1 ih2 =>
    intro h n
    rw [itemsErrs] at h
    rcases List.append_eq_nil.mp h with ⟨h1, h2⟩
    rw [itemsOkTrue, markedItems, ih1 h1 n, ih2 h2 n]

theorem findClasses_ok_errs (file : SynFile) (s : Finset String)
    (h : findClasses file = .ok s) :
    itemsErrs file = [] ∧ s = (visitItems (∅, []) file).1 := by
  unfold findClasses mkResult at h
  have hsnd := visitItems_snd (∅, []) file
  cases hg : (visitItems (∅, []) file).2.getLast? with
  | none =>
    rw [hg] at h
    refine ⟨?_, by simpa using h.symm⟩
    have : (visitItems (∅, []) file).2 = [] := List.getLast?_eq_none_iff.mp hg
    rw [hsnd] at this
    simpa using this
  | some last => rw [hg] at h; exact absurd h (by simp)

theorem findClasses_err_of_errs (file : SynFile) (last : SynError)
    (hg : (itemsErrs file).getLast? = some last) :
    findClasses file = .error (last ++ (itemsErrs file).dropLast.flatten) := by
  unfold findClasses mkResult
  have hsnd := visitItems_snd (∅, []) file
  simp only at hsnd
  rw [hsnd] at *
  simp only [List.nil_append] at *
  rw [hg]

theorem scanTokens_err (ts : List TokenTree) (t : TokenTree)
    (ht : t ∈ ts) (hg : t.isGroup = false) :
    ∀ res, ∃ e, scanTokens res ts = .error e := by
  induction ts with
  | nil => cases ht
  | cons u us ih =>
    intro res
    cases u with
    | group s stream =>
      rcases List.mem_cons.mp ht with h | h
      · rw [h] at hg; simp [TokenTree.isGroup] at hg
      · exact ih h (res || groupContainsNativeClass stream)
    | ident s n => exact ⟨_, rfl⟩
    | other s => exact ⟨_, rfl⟩

theorem dnGo_err (attrs : List Attribute) (a : Attribute)
    (ha : a ∈ attrs) (hp : a.path = "derive") (t : TokenTree)
    (ht : t ∈ a.tokens) (hg : t.isGroup = false) :
    ∀ res, ∃ e, dnGo res attrs = .error e := by
  induction attrs with
  | nil => cases ha
  | cons x rest ih =>
    intro res
    rcases List.mem_cons.mp ha with h | h
    · subst h
      rcases scanTokens_err a.tokens t ht hg res with ⟨e, he⟩
      refine ⟨e, ?_⟩
      rw [dnGo, if_pos hp, he]
    · by_cases hx : x.path = "derive"
      · cases hs : scanTokens res x.tokens with
        | ok r =>
          rcases ih h r with ⟨e, he⟩
          exact ⟨e, by rw [dnGo, if_pos hx, hs]; exact he⟩
        | error e => exact ⟨e, by rw [dnGo, if_pos hx, hs]⟩
      · rcases ih h res with ⟨e, he⟩
        exact ⟨e, by rw [dnGo, if_neg hx]; exact he⟩

theorem itemsErrs_append (l1 l2 : List Item) :
    itemsErrs (l1 ++ l2) = itemsErrs l1 ++ itemsErrs l2 := by
  induction l1 with
  | nil => simp [itemsErrs]
  | cons i rest ih =>
    cases i with
    | strukt n attrs => simp [itemsErrs, ih]
    | enum n attrs => simp [itemsErrs, ih]
    | container inner => simp [itemsErrs, ih]

theorem findClasses_err_nonempty (file : SynFile)
    (h : itemsErrs file ≠ []) : ∃ e, findClasses file = .error e := by
  cases hg : (itemsErrs file).getLast? with
  | none => exact absurd (List.getLast?_eq_none_iff.mp hg) h
  | some last => exact ⟨_, findClasses_err_of_errs file last hg⟩

theorem scanFilesAux_short_circuit (l1 : List SourceFile)
    (h1 : ∀ f ∈ l1, ∃ c, processFile f = .ok c)
    (f : SourceFile) (e : ScanError) (hf : processFile f = .error e)
    (l2 : List SourceFile) :
    ∀ acc, scanFilesAux acc (l1 ++ f :: l2) = .error e := by
  induction l1 with
  | nil =>
    intro acc
    simp only [List.nil_append, scanFilesAux, hf]
  | cons g l1 ih =>
    intro acc
    rcases h1 g (List.mem_cons_self g l1) with ⟨c, hc⟩
    have := ih fun x hx => h1 x (List.mem_cons_of_mem g hx)
    simp only [List.cons_append, scanFilesAux, hc]
    exact this (acc ∪ c)

theorem scanFilesAux_ok_all (l : List SourceFile) :
    ∀ acc s, scanFilesAux acc l = .ok s → ∀ f ∈ l, ∃ c, processFile f = .ok c := by
  induction l with
  | nil => intro acc s _ f hf; cases hf
  | cons g l ih =>
    intro acc s h f hf
    rw [scanFilesAux] at h
    cases hg : processFile g with
    | error e => rw [hg] at h; exact absurd h (by simp)
    | ok c =>
      rw [hg] at h
      rcases List.mem_cons.mp hf with h1 | h1
      · exact ⟨c, h1 ▸ hg⟩
      · exact ih (acc ∪ c) s h f h1

theorem scanFilesAux_ok_mem (l : List SourceFile) :
    ∀ acc s, scanFilesAux acc l = .ok s →
      ∀ n, n ∈ s ↔ (n ∈ acc ∨ ∃ f ∈ l, ∃ c, processFile f = .ok c ∧ n ∈ c) := by
  induction l with
  | nil =>
    intro acc s h n
    rw [scanFilesAux] at h
    simp only [Except.ok.injEq] at h
    simp [← h]
  | cons g l ih =>
    intro acc s h n
    rw [scanFilesAux] at h
    cases hg : processFile g with
    | error e => rw [hg] at h; exact absurd h (by simp)
    | ok c =>
      rw [hg] at h
      rw [ih (acc ∪ c) s h n]
      constructor
      · rintro (hm | hm)
        · rcases Finset.mem_union.mp hm with hm | hm
          · exact Or.inl hm
          · exact Or.inr ⟨g, List.mem_cons_self g l, c, hg, hm⟩
        · rcases hm with ⟨f, hfl, c2, hc2, hn⟩
          exact Or.inr ⟨f, List.mem_cons_of_mem g hfl, c2, hc2, hn⟩
      · rintro (hm | hm)
        · exact Or.inl (Finset.mem_union_left c hm)
        · rcases hm with ⟨f, hfl, c2, hc2, hn⟩
          rcases List.mem_cons.mp hfl with h1 | h1
          · subst h1
            rw [hg] at hc2
            simp only [Except.ok.injEq] at hc2
            exact Or.inl (Finset.mem_union_right acc (hc2 ▸ hn))
          · exact Or.inr ⟨f, h1, c2, hc2, hn⟩

theorem scanFilesAux_all_ok (l : List SourceFile)
    (h : ∀ f ∈ l, ∃ c, processFile f = .ok c) :
    ∀ acc, ∃ s, scanFilesAux acc l = .ok s := by
  induction l with
  | nil => intro acc; exact ⟨acc, rfl⟩
  | cons g l ih =>
    intro acc
    rcases h g (List.mem_cons_self g l) with ⟨c, hc⟩
    rcases ih (fun x hx => h x (List.mem_cons_of_mem g hx)) (acc ∪ c) with ⟨s, hs⟩
    exact ⟨s, by rw [scanFilesAux, hc]; exact hs⟩

theorem diffComps_of_isPrefix : ∀ (as ps : List String), as <+: ps →
    diffComps ps as = ps.drop as.length := by
  intro as
  induction as with
  | nil => intro ps _; cases ps <;> simp [diffComps]
  | cons a as ih =>
    intro ps hp
    cases ps with
    | nil => exact absurd (List.eq_nil_of_prefix_nil hp) (by simp)
    | cons p ps =>
      have hap : a = p := (List.cons_prefix_cons.mp hp).1
      have htl : as <+: ps := (List.cons_prefix_cons.mp hp).2
      rw [diffComps, if_pos hap.symm, ih ps htl]
      simp

theorem diffComps_of_not_isPrefix : ∀ (as ps : List String), ¬ as <+: ps →
    (diffComps ps as).head? = some ".." := by
  intro as
  induction as with
  | nil => intro ps hp; exact absurd (List.nil_prefix) hp
  | cons a as ih =>
    intro ps hp
    cases ps with
    | nil => simp [diffComps]
    | cons p ps =>
      by_cases hap : p = a
      · have : ¬ as <+: ps := fun hc => hp (List.cons_prefix_cons.mpr ⟨hap.symm, hc⟩)
        rw [diffComps, if_pos hap]
        exact ih ps this
      · rw [diffComps, if_neg hap]
        cases as <;> simp [List.replicate]

theorem relativize_inside (base against : RPath)
    (hb : base.abs = true) (ha : against.abs = true)
    (hpre : against.comps <+: base.comps) (hnd : ".." ∉ base.comps) :
    relativize base against =
      some ("res://", ⟨false, base.comps.drop against.comps.length⟩) := by
  unfold relativize diffPaths
  rw [hb, ha]
  have hsw : startsWithParentDir ⟨false, base.comps.drop against.comps.length⟩ = false := by
    unfold startsWithParentDir
    cases hd : base.comps.drop against.comps.length with
    | nil => simp
    | cons x xs =>
      have hx : x ∈ base.comps := by
        have : x ∈ base.comps.drop against.comps.length := by rw [hd]; simp
        exact List.drop_subset _ _ this
      have : x ≠ ".." := fun hc => hnd (hc ▸ hx)
      simp [this]
  simp [diffComps_of_isPrefix against.comps base.comps hpre, hsw]

theorem relativize_outside (base against : RPath)
    (hb : base.abs = true) (ha : against.abs = true)
    (hpre : ¬ against.comps <+: base.comps) :
    relativize base against = some ("", base) := by
  unfold relativize diffPaths
  rw [hb, ha]
  have hsw : startsWithParentDir ⟨false, diffComps base.comps against.comps⟩ = true := by
    unfold startsWithParentDir
    simp [diffComps_of_not_isPrefix against.comps base.comps hpre]
  simp [hsw]

theorem readFile_writeFile_self (fs : FS) (p : RPath) (c : String) :
    (fs.writeFile p c).readFile p = some c := by
  simp [FS.writeFile, FS.readFile]

theorem readFile_writeFile_ne (fs : FS) (p q : RPath) (c : String) (h : p ≠ q) :
    (fs.writeFile p c).readFile q = fs.readFile q := by
  simp [FS.writeFile, FS.readFile, h]

theorem existsFile_writeFile_mono (fs : FS) (p q : RPath) (c : String)
    (h : fs.existsFile q = true) : (fs.writeFile p c).existsFile q = true := by
  unfold FS.existsFile at *
  by_cases hpq : p = q
  · subst hpq; simp [readFile_writeFile_self]
  · rw [readFile_writeFile_ne fs p q c hpq]; exact h

theorem wcf_existsFile_mono (d : RPath) (a : String) (m : RPath) :
    ∀ (cs : List String) (fs : FS) (q : RPath), fs.existsFile q = true →
      (writeClassFiles d a m fs cs).existsFile q = true := by
  intro cs
  induction cs with
  | nil => intro fs q h; exact h
  | cons n ns ih =>
    intro fs q h
    rw [writeClassFiles]
    by_cases he : fs.existsFile (d.join (n ++ ".gdns")) = true
    · rw [if_pos he]; exact ih fs q h
    · rw [if_neg he]
      exact ih _ q (existsFile_writeFile_mono fs _ q _ h)

theorem wcf_all_exist (d : RPath) (a : String) (m : RPath) :
    ∀ (cs : List String) (fs : FS) (n : String), n ∈ cs →
      (writeClassFiles d a m fs cs).existsFile (d.join (n ++ ".gdns")) = true := by
  intro cs
  induction cs with
  | nil => intro fs n h; cases h
  | cons x ns ih =>
    intro fs n h
    rw [writeClassFiles]
    rcases List.mem_cons.mp h with h1 | h1
    · subst h1
      by_cases he : fs.existsFile (d.join (n ++ ".gdns")) = true
      · rw [if_pos he]; exact wcf_existsFile_mono d a m ns fs _ he
      · rw [if_neg he]
        refine wcf_existsFile_mono d a m ns _ _ ?_
        unfold FS.existsFile
        rw [readFile_writeFile_self]
        rfl
    · by_cases he : fs.existsFile (d.join (x ++ ".gdns")) = true
      · rw [if_pos he]; exact ih fs n h1
      · rw [if_neg he]; exact ih _ n h1

theorem wcf_noop (d : RPath) (a : String) (m : RPath) :
    ∀ (cs : List String) (fs : FS),
      (∀ n ∈ cs, fs.existsFile (d.join (n ++ ".gdns")) = true) →
      writeClassFiles d a m fs cs = fs := by
  intro cs
  induction cs with
  | nil => intro fs _; rfl
  | cons n ns ih =>
    intro fs h
    rw [writeClassFiles, if_pos (h n (List.mem_cons_self n ns))]
    exact ih fs fun x hx => h x (List.mem_cons_of_mem n hx)

theorem buildCore_idem (r : Resolved) (cs : List String) (fs fs2 : FS)
    (h : buildCore r cs fs = .ok fs2) : buildCore r cs fs2 = .ok fs2 := by
  unfold buildCore at *
  cases h1 : relativize r.targetDir r.projectDir with
  | none => rw [h1] at h; exact absurd h (by simp)
  | some pr =>
    rw [h1] at h
    simp only at h
    cases h2 : relativize (r.outputDir.join (r.libName ++ ".gdnlib")) r.projectDir with
    | none => rw [h2] at h; exact absurd h (by simp)
    | some pr2 =>
      rw [h2] at h
      simp only [Except.ok.injEq] at h
      set gp := r.outputDir.join (r.libName ++ ".gdnlib") with hgp
      have hex : fs2.existsFile gp = true := by
        rw [← h]
        by_cases he : fs.existsFile gp = true
        · rw [if_pos he]; exact wcf_existsFile_mono r.outputDir pr2.1 pr2.2 cs fs gp he
        · rw [if_neg he]
          refine wcf_existsFile_mono r.outputDir pr2.1 pr2.2 cs _ gp ?_
          unfold FS.existsFile
          rw [readFile_writeFile_self]
          rfl
      simp only [h2, hex, if_true, Except.ok.injEq]
      refine wcf_noop r.outputDir pr2.1 pr2.2 cs fs2 fun n hn => ?_
      rw [← h]
      exact wcf_all_exist r.outputDir pr2.1 pr2.2 cs _ n hn

instance {ε α : Type} [DecidableEq ε] [DecidableEq α] : DecidableEq (Except ε α) := fun x y =>
  match x, y with
  | .ok a, .ok b =>
    if h : a = b then .isTrue (by rw [h]) else .isFalse (by intro hc; cases hc; exact h rfl)
  | .error a, .error b =>
    if h : a = b then .isTrue (by rw [h]) else .isFalse (by intro hc; cases hc; exact h rfl)
  | .ok _, .error _ => .isFalse (by intro hc; cases hc)
  | .error _, .ok _ => .isFalse (by intro hc; cases hc)


/-- C1: when scanning a parsed source tree succeeds, the returned set
contains exactly the identifiers of struct and enum declarations, at any
nesting depth, whose derive-attribute token list contains the literal
identifier NativeClass, and no identifier of a declaration without such a
derive list. -/
theorem c1_discovery_exact (file : SynFile) (s : Finset String)
    (h : findClasses file = .ok s) (n : String) :
    n ∈ s ↔ markedItems file n = true := by
  rcases findClasses_ok_errs file s h with ⟨herrs, hs⟩
  rw [hs, visitItems_fst_mem (∅, []) file n, itemsOkTrue_eq_marked file herrs n]
  simp

/-- C1 witness: on the sample file, scanning succeeds with the set
containing Foo and Bar, and membership of Bar matches the marker predicate. -/
theorem c1_discovery_exact_witness :
    ("Bar" ∈ ({"Foo", "Bar"} : Finset String)) ↔ markedItems wFile "Bar" = true :=
  c1_discovery_exact wFile {"Foo", "Bar"}
    (by
      have hv : visitItems (∅, []) wFile = ({"Foo", "Bar"}, []) := by
        simp [wFile, visitItems, stepDecl, derivesNativeclass, dnGo, scanTokens,
          groupContainsNativeClass, wAttr, cloneAttr]
        decide
      rw [findClasses, hv]
      rfl)
    "Bar"

/-- C2 counterexample: the files fBad1 and fBad2 each produce a non-fatal
structural error (spans 1 and 2), yet the scan outcome carries only the
error of the first file and omits the error of the second file entirely, so
the structural errors of all files are not combined. -/
theorem c2_counterexample :
    scanFiles [fBad1, fBad2] = .error (.parse [⟨1, umsg⟩]) ∧
    (⟨2, umsg⟩ : SynMsg) ∉ ([⟨1, umsg⟩] : SynError) := by
  constructor
  · have h1 : processFile fBad1 = .error (.parse [⟨1, umsg⟩]) := by
      have hv : visitItems (∅, []) [Item.strukt "A" [badAttr1]] = (∅, [[⟨1, umsg⟩]]) := by
        simp [visitItems, stepDecl, derivesNativeclass, dnGo, scanTokens, badAttr1, umsg,
          TokenTree.span]
      rw [fBad1, processFile, findClasses, hv]
      rfl
    rw [scanFiles, scanFilesAux, h1]
  · decide

/-- C2 amended: the scan stops at the first file whose processing fails:
when every file before it succeeds, the error of that file is the whole
scan outcome, and the files after it have no influence on the result. -/
theorem c2_scan_short_circuits (l1 : List SourceFile)
    (h1 : ∀ f ∈ l1, ∃ c, processFile f = .ok c)
    (f : SourceFile) (e : ScanError) (hf : processFile f = .error e)
    (l2 l2' : List SourceFile) :
    scanFiles (l1 ++ f :: l2) = .error e ∧
    scanFiles (l1 ++ f :: l2) = scanFiles (l1 ++ f :: l2') := by
  have h := scanFilesAux_short_circuit l1 h1 f e hf
  refine ⟨by rw [scanFiles]; exact h l2 ∅, ?_⟩
  rw [scanFiles, scanFiles, h l2 ∅, h l2' ∅]

/-- C2 witness: with one succeeding file followed by two failing files, the
scan returns the error of the first failing file and equals the scan that
never sees the last file. -/
theorem c2_scan_short_circuits_witness :
    scanFiles [fOkA, fBad1, fBad2] = .error (.parse [⟨1, umsg⟩]) ∧
    scanFiles [fOkA, fBad1, fBad2] = scanFiles [fOkA, fBad1] :=
  c2_scan_short_circuits [fOkA]
    (by
      intro f hf
      rw [List.mem_singleton] at hf
      subst hf
      refine ⟨{"WA"}, ?_⟩
      have hv : visitItems (∅, []) [Item.strukt "WA" [wAttr]] = ({"WA"}, []) := by
        simp [visitItems, stepDecl, derivesNativeclass, dnGo, scanTokens,
          groupContainsNativeClass, wAttr]
      rw [fOkA, processFile, findClasses, hv]
      rfl)
    fBad1 (.parse [⟨1, umsg⟩])
    (by
      have hv : visitItems (∅, []) [Item.strukt "A" [badAttr1]] = (∅, [[⟨1, umsg⟩]]) := by
        simp [visitItems, stepDecl, derivesNativeclass, dnGo, scanTokens, badAttr1, umsg,
          TokenTree.span]
      rw [fBad1, processFile, findClasses, hv]
      rfl)
    [fBad2] []

/-- C7 counterexample: on a file with two recorded structural errors (spans
1 and 2, in recording order), the composite error starts with the second
error and absorbs the first, which differs from the first error absorbing
the subsequent one. -/
theorem c7_counterexample :
    findClasses c7File = .error [⟨2, umsg⟩, ⟨1, umsg⟩] ∧
    ([⟨2, umsg⟩, ⟨1, umsg⟩] : SynError) ≠ [⟨1, umsg⟩, ⟨2, umsg⟩] := by
  constructor
  · have hv : visitItems (∅, []) c7File = (∅, [[⟨1, umsg⟩], [⟨2, umsg⟩]]) := by
      simp [c7File, visitItems, stepDecl, derivesNativeclass, dnGo, scanTokens, badAttr1,
        badAttr2, umsg, TokenTree.span]
    rw [findClasses, hv]
    rfl
  · decide

/-- C7 amended: when structural errors are recorded, the composite error is
built by taking the last recorded error and absorbing every earlier
recorded error into it, in recording order. -/
theorem c7_last_error_absorbs (file : SynFile) (es : List SynError) (last : SynError)
    (hes : (visitItems (∅, []) file).2 = es) (hg : es.getLast? = some last) :
    findClasses file = .error (last ++ es.dropLast.flatten) := by
  rw [findClasses, mkResult, hes, hg]

/-- C7 witness: on the two-error file the composite equals the last error
followed by the flattened earlier errors. -/
theorem c7_last_error_absorbs_witness :
    findClasses c7File =
      .error ([⟨2, umsg⟩] ++ ([[⟨1, umsg⟩], [⟨2, umsg⟩]] : List SynError).dropLast.flatten) :=
  c7_last_error_absorbs c7File [[⟨1, umsg⟩], [⟨2, umsg⟩]] [⟨2, umsg⟩]
    (by
      have hv : visitItems (∅, []) c7File = (∅, [[⟨1, umsg⟩], [⟨2, umsg⟩]]) := by
        simp [c7File, visitItems, stepDecl, derivesNativeclass, dnGo, scanTokens, badAttr1,
          badAttr2, umsg, TokenTree.span]
      rw [hv])
    rfl

/-- C9 counterexample: two permutations of the same failing file sequence
produce different aggregated-error outcomes, one naming span 1 and the
other span 2. -/
theorem c9_counterexample :
    [fBad1, fBad2].Perm [fBad2, fBad1] ∧
    scanFiles [fBad1, fBad2] = .error (.parse [⟨1, umsg⟩]) ∧
    scanFiles [fBad2, fBad1] = .error (.parse [⟨2, umsg⟩]) ∧
    (ScanError.parse [⟨1, umsg⟩] : ScanError) ≠ .parse [⟨2, umsg⟩] := by
  refine ⟨List.Perm.swap fBad2 fBad1 [], ?_, ?_, by decide⟩
  · have h1 : processFile fBad1 = .error (.parse [⟨1, umsg⟩]) := by
      have hv : visitItems (∅, []) [Item.strukt "A" [badAttr1]] = (∅, [[⟨1, umsg⟩]]) := by
        simp [visitItems, stepDecl, derivesNativeclass, dnGo, scanTokens, badAttr1, umsg,
          TokenTree.span]
      rw [fBad1, processFile, findClasses, hv]
      rfl
    rw [scanFiles, scanFilesAux, h1]
  · have h2 : processFile fBad2 = .error (.parse [⟨2, umsg⟩]) := by
      have hv : visitItems (∅, []) [Item.strukt "B" [badAttr2]] = (∅, [[⟨2, umsg⟩]]) := by
        simp [visitItems, stepDecl, derivesNativeclass, dnGo, scanTokens, badAttr2, umsg,
          TokenTree.span]
      rw [fBad2, processFile, findClasses, hv]
      rfl
    rw [scanFiles, scanFilesAux, h2]

/-- C9 amended: permutations of the input file sequence agree on whether
the scan succeeds, and on the discovered set when it does; the error value
returned on failure may differ between permutations. -/
theorem c9_perm_invariant (l l2 : List SourceFile) (hp : l.Perm l2) :
    ((∃ s, scanFiles l = .ok s) ↔ ∃ s, scanFiles l2 = .ok s) ∧
    (∀ s s2, scanFiles l = .ok s → scanFiles l2 = .ok s2 → s = s2) := by
  constructor
  · constructor
    · rintro ⟨s, hs⟩
      exact scanFilesAux_all_ok l2
        (fun f hf => scanFilesAux_ok_all l ∅ s hs f (hp.mem_iff.mpr hf)) ∅
    · rintro ⟨s, hs⟩
      exact scanFilesAux_all_ok l
        (fun f hf => scanFilesAux_ok_all l2 ∅ s hs f (hp.mem_iff.mp hf)) ∅
  · intro s s2 hs hs2
    apply Finset.ext
    intro n
    rw [scanFilesAux_ok_mem l ∅ s hs n, scanFilesAux_ok_mem l2 ∅ s2 hs2 n]
    simp only [Finset.not_mem_empty, false_or]
    constructor
    · rintro ⟨f, hf, c, hc, hn⟩
      exact ⟨f, hp.mem_iff.mp hf, c, hc, hn⟩
    · rintro ⟨f, hf, c, hc, hn⟩
      exact ⟨f, hp.mem_iff.mpr hf, c, hc, hn⟩

/-- C9 witness: the two-file success scan returns the same set under the
swapped order. -/
theorem c9_perm_invariant_witness :
    ({"WA", "WB"} : Finset String) = {"WB", "WA"} :=
  (c9_perm_invariant [fOkA, fOkB] [fOkB, fOkA] (List.Perm.swap fOkB fOkA [])).2
    {"WA", "WB"} {"WB", "WA"}
    (by
      have h1 : processFile fOkA = .ok {"WA"} := by
        have hv : visitItems (∅, []) [Item.strukt "WA" [wAttr]] = ({"WA"}, []) := by
          simp [visitItems, stepDecl, derivesNativeclass, dnGo, scanTokens,
            groupContainsNativeClass, wAttr]
        rw [fOkA, processFile, findClasses, hv]
        rfl
      have h2 : processFile fOkB = .ok {"WB"} := by
        have hv : visitItems (∅, []) [Item.enum "WB" [wAttr]] = ({"WB"}, []) := by
          simp [visitItems, stepDecl, derivesNativeclass, dnGo, scanTokens,
            groupContainsNativeClass, wAttr]
        rw [fOkB, processFile, findClasses, hv]
        rfl
      simp only [scanFiles, scanFilesAux, h1, h2]
      decide)
    (by
      have h1 : processFile fOkA = .ok {"WA"} := by
        have hv : visitItems (∅, []) [Item.strukt "WA" [wAttr]] = ({"WA"}, []) := by
          simp [visitItems, stepDecl, derivesNativeclass, dnGo, scanTokens,
            groupContainsNativeClass, wAttr]
        rw [fOkA, processFile, findClasses, hv]
        rfl
      have h2 : processFile fOkB = .ok {"WB"} := by
        have hv : visitItems (∅, []) [Item.enum "WB" [wAttr]] = ({"WB"}, []) := by
          simp [visitItems, stepDecl, derivesNativeclass, dnGo, scanTokens,
            groupContainsNativeClass, wAttr]
        rw [fOkB, processFile, findClasses, hv]
        rfl
      simp only [scanFiles, scanFilesAux, h1, h2]
      decide)

theorem relativize_total (base against : RPath) (h : base.abs = against.abs) :
    ∃ v, relativize base against = some v := by
  unfold relativize diffPaths
  rw [if_pos h]
  by_cases hs : startsWithParentDir ⟨false, diffComps base.comps against.comps⟩ = true
  · refine ⟨("", base), ?_⟩
    simp [hs]
  · refine ⟨("res://", ⟨false, diffComps base.comps against.comps⟩), ?_⟩
    simp [hs]

theorem buildCore_writes_fresh_gdns (r : Resolved) (n : String) (fs : FS)
    (pr pr2 : String × RPath)
    (h1 : relativize r.targetDir r.projectDir = some pr)
    (h2 : relativize (r.outputDir.join (r.libName ++ ".gdnlib")) r.projectDir = some pr2)
    (hfresh : fs.existsFile (r.outputDir.join (n ++ ".gdns")) = false)
    (hne : r.outputDir.join (r.libName ++ ".gdnlib") ≠ r.outputDir.join (n ++ ".gdns")) :
    ∃ fs2, buildCore r [n] fs = .ok fs2 ∧
      fs2.readFile (r.outputDir.join (n ++ ".gdns")) = some (generateGdns pr2.1 pr2.2 n) := by
  unfold buildCore
  simp only [h1, h2]
  refine ⟨_, rfl, ?_⟩
  have hf1 : (if fs.existsFile (r.outputDir.join (r.libName ++ ".gdnlib")) = true then fs
      else fs.writeFile (r.outputDir.join (r.libName ++ ".gdnlib"))
        (generateGdnlib pr.1 (commonBinaryOutputs pr.2 r.mode r.libName))).existsFile
      (r.outputDir.join (n ++ ".gdns")) = false := by
    by_cases he : fs.existsFile (r.outputDir.join (r.libName ++ ".gdnlib")) = true
    · rw [if_pos he]
      exact hfresh
    · rw [if_neg he]
      unfold FS.existsFile at *
      rw [readFile_writeFile_ne _ _ _ _ hne]
      exact hfresh
  simp only [writeClassFiles, hf1, Bool.false_eq_true, if_false, readFile_writeFile_self]

/-- C10: a derive attribute with a payload token that is not a parenthesized
group makes the declaration a structural error: the visitor records the
error and does not add the declaration identifier, even when another derive
attribute of the same declaration carries the NativeClass marker, and
scanning the whole file fails. -/
theorem c10_malformed_derive (attrs : List Attribute) (a : Attribute) (ha : a ∈ attrs)
    (hp : a.path = "derive") (t : TokenTree) (ht : t ∈ a.tokens) (hg : t.isGroup = false)
    (nm : String) (st : VState) (pre post : List Item) :
    (∃ e, derivesNativeclass attrs = .error e ∧
      visitItems st [Item.strukt nm attrs] = (st.1, st.2 ++ [e])) ∧
    ∃ e2, findClasses (pre ++ Item.strukt nm attrs :: post) = .error e2 := by
  rcases dnGo_err attrs a ha hp t ht hg false with ⟨e, he⟩
  have hdn : derivesNativeclass attrs = .error e := he
  have hde : dnErrs attrs = [e] := by unfold dnErrs; rw [hdn]
  have hdo : dnOkTrue attrs = false := by unfold dnOkTrue; rw [hdn]
  constructor
  · refine ⟨e, hdn, ?_⟩
    rw [visitItems, visitItems, stepDecl_eq, hde, hdo]
    simp
  · apply findClasses_err_nonempty
    rw [itemsErrs_append, itemsErrs]
    simp [hde]

/-- C10 witness: a declaration whose first derive attribute carries the
marker and whose second derive attribute has a non-group payload token is
recorded as an error, its identifier is not collected, and the file scan
fails. -/
theorem c10_malformed_derive_witness :
    (∃ e, derivesNativeclass [wAttr, badAttr1] = .error e ∧
      visitItems (∅, []) [Item.strukt "X" [wAttr, badAttr1]] = (∅, [e])) ∧
    ∃ e2, findClasses [Item.strukt "X" [wAttr, badAttr1]] = .error e2 :=
  c10_malformed_derive [wAttr, badAttr1] badAttr1
    (List.mem_cons_of_mem wAttr (List.mem_cons_self badAttr1 []))
    rfl (TokenTree.other 1) (List.mem_cons_self (TokenTree.other 1) []) rfl
    "X" (∅, []) [] []

/-- C3: generation is idempotent: running build a second time with the same
configuration, environment and class set returns exactly the filesystem
produced by the first run, overwriting neither the manifest nor any class
descriptor. -/
theorem c3_build_idempotent (b : Builder) (env : Env) (classes : List String) (fs fs2 : FS)
    (h : buildFull b env classes fs = .ok fs2) :
    buildFull b env classes fs2 = .ok fs2 := by
  unfold buildFull at *
  cases hr : resolveConfig b env with
  | error e => rw [hr] at h; exact absurd h (by simp)
  | ok r =>
    rw [hr] at h
    exact buildCore_idem r classes fs fs2 h

/-- C3 witness: a second build of the fully configured project over the
filesystem produced by the first build returns that filesystem unchanged. -/
theorem c3_build_idempotent_witness : buildFull wBuilder wEnv ["Test"] wFS = .ok wFS :=
  c3_build_idempotent wBuilder wEnv ["Test"] [] wFS rfl

/-- C4: for canonicalized absolute paths, relativizing a descendant of the
project root yields the res:// prefix and a relative path with no
parent-traversal segments, rendered with forward-slash separators;
relativizing a path outside the root yields the empty prefix and the
absolute path verbatim. -/
theorem c4_relativization (base against : RPath) (hb : base.abs = true)
    (ha : against.abs = true) (hnd : ".." ∉ base.comps) :
    (against.comps <+: base.comps →
      relativize base against =
        some ("res://", ⟨false, base.comps.drop against.comps.length⟩) ∧
      ".." ∉ base.comps.drop against.comps.length ∧
      toSlashLossy ⟨false, base.comps.drop against.comps.length⟩ =
        String.intercalate "/" (base.comps.drop against.comps.length)) ∧
    (¬ against.comps <+: base.comps → relativize base against = some ("", base)) := by
  constructor
  · intro hpre
    refine ⟨relativize_inside base against hb ha hpre hnd, ?_, by simp [toSlashLossy]⟩
    intro hc
    exact hnd (List.drop_subset _ _ hc)
  · intro hpre
    exact relativize_outside base against hb ha hpre

/-- C4 witness: a target under the project root maps to the res:// prefix
with the dropped-prefix relative path, and a target outside the root maps to
the empty prefix with the absolute path. -/
theorem c4_relativization_witness :
    relativize ⟨true, ["proj", "target"]⟩ ⟨true, ["proj"]⟩ =
      some ("res://", ⟨false, ["target"]⟩) ∧
    relativize ⟨true, ["tmp", "xyz"]⟩ ⟨true, ["proj"]⟩ = some ("", ⟨true, ["tmp", "xyz"]⟩) :=
  ⟨((c4_relativization ⟨true, ["proj", "target"]⟩ ⟨true, ["proj"]⟩ rfl rfl
      (by decide)).1 (by decide)).1,
   (c4_relativization ⟨true, ["tmp", "xyz"]⟩ ⟨true, ["proj"]⟩ rfl rfl
      (by decide)).2 (by decide)⟩

/-- C5: the computed binary set replaces every hyphen of the library name
with an underscore and, per platform, joins the artifact base, an optional
cross-target directory, the profile directory and the platform filename
convention; the library name my-lib yields libmy_lib.so. -/
theorem c5_binary_outputs (target : RPath) (mode : BuildMode) (name : String) :
    (commonBinaryOutputs target mode name).x11 =
      ⟨target.abs, target.comps ++ [modeDir mode, "lib" ++ replaceHyphens name ++ ".so"]⟩ ∧
    (commonBinaryOutputs target mode name).osx =
      ⟨target.abs, target.comps ++ [modeDir mode, "lib" ++ replaceHyphens name ++ ".dylib"]⟩ ∧
    (commonBinaryOutputs target mode name).windows =
      ⟨target.abs, target.comps ++ [modeDir mode, replaceHyphens name ++ ".dll"]⟩ ∧
    (commonBinaryOutputs target mode name).android_armv7 =
      ⟨target.abs, target.comps ++
        ["armv7-linux-androideabi", modeDir mode, "lib" ++ replaceHyphens name ++ ".so"]⟩ ∧
    (commonBinaryOutputs target mode name).android_aarch64 =
      ⟨target.abs, target.comps ++
        ["aarch64-linux-android", modeDir mode, "lib" ++ replaceHyphens name ++ ".so"]⟩ ∧
    (commonBinaryOutputs target mode name).android_x86 =
      ⟨target.abs, target.comps ++
        ["i686-linux-android", modeDir mode, "lib" ++ replaceHyphens name ++ ".so"]⟩ ∧
    (commonBinaryOutputs target mode name).android_x86_64 =
      ⟨target.abs, target.comps ++
        ["x86_64-linux-android", modeDir mode, "lib" ++ replaceHyphens name ++ ".so"]⟩ ∧
    replaceHyphens "my-lib" = "my_lib" := by
  refine ⟨?_, ?_, ?_, ?_, ?_, ?_, ?_, by decide⟩ <;>
    simp [commonBinaryOutputs, RPath.join]

/-- C6 counterexample: with the resource output directory outside the
project root, the written descriptor references the manifest by its
absolute path: the reference is not a path relative to the descriptor
directory (it is absolute) and does not carry the res:// prefix. -/
theorem c6_counterexample :
    buildCore c6Resolved ["T"] [] = .ok c6FS ∧
    FS.readFile c6FS ⟨true, ["out", "T.gdns"]⟩ =
      some (generateGdns "" ⟨true, ["out", "d.gdnlib"]⟩ "T") ∧
    relativize ⟨true, ["out", "d.gdnlib"]⟩ ⟨true, ["proj"]⟩ =
      some ("", ⟨true, ["out", "d.gdnlib"]⟩) ∧
    ("" : String) ≠ "res://" ∧
    (RPath.mk true ["out", "d.gdnlib"]).abs = true :=
  ⟨rfl, rfl, rfl, by decide, rfl⟩

/-- C6 amended: a freshly written class descriptor references the manifest
by its res:// root-relative path when the manifest lies under the project
root, and by its absolute path otherwise. -/
theorem c6_gdns_reference (r : Resolved) (n : String)
    (hb : r.projectDir.abs = true) (ho : r.outputDir.abs = true)
    (ht : r.targetDir.abs = true)
    (hnd : ".." ∉ (r.outputDir.join (r.libName ++ ".gdnlib")).comps)
    (fs : FS)
    (hfresh : fs.existsFile (r.outputDir.join (n ++ ".gdns")) = false)
    (hne : r.outputDir.join (r.libName ++ ".gdnlib") ≠ r.outputDir.join (n ++ ".gdns")) :
    ∃ pr, relativize (r.outputDir.join (r.libName ++ ".gdnlib")) r.projectDir = some pr ∧
      ((r.projectDir.comps <+: (r.outputDir.join (r.libName ++ ".gdnlib")).comps →
          pr.1 = "res://" ∧ pr.2.abs = false) ∧
        (¬ r.projectDir.comps <+: (r.outputDir.join (r.libName ++ ".gdnlib")).comps →
          pr.1 = "" ∧ pr.2 = r.outputDir.join (r.libName ++ ".gdnlib"))) ∧
      ∃ fs2, buildCore r [n] fs = .ok fs2 ∧
        fs2.readFile (r.outputDir.join (n ++ ".gdns")) = some (generateGdns pr.1 pr.2 n) := by
  have hgpa : (r.outputDir.join (r.libName ++ ".gdnlib")).abs = true := ho
  rcases relativize_total r.targetDir r.projectDir (by rw [ht, hb]) with ⟨pr, hpr⟩
  by_cases hpre : r.projectDir.comps <+: (r.outputDir.join (r.libName ++ ".gdnlib")).comps
  · have hrel := relativize_inside (r.outputDir.join (r.libName ++ ".gdnlib"))
      r.projectDir hgpa hb hpre hnd
    exact ⟨_, hrel, ⟨fun _ => ⟨rfl, rfl⟩, fun hc => absurd hpre hc⟩,
      buildCore_writes_fresh_gdns r n fs pr _ hpr hrel hfresh hne⟩
  · have hrel := relativize_outside (r.outputDir.join (r.libName ++ ".gdnlib"))
      r.projectDir hgpa hb hpre
    exact ⟨_, hrel, ⟨fun hc => absurd hc hpre, fun _ => ⟨rfl, rfl⟩⟩,
      buildCore_writes_fresh_gdns r n fs pr _ hpr hrel hfresh hne⟩

/-- C6 witness: for the fully in-root layout the descriptor is written with
the res:// reference to the manifest. -/
theorem c6_gdns_reference_witness :
    ∃ pr,
      relativize (c6ResolvedIn.outputDir.join (c6ResolvedIn.libName ++ ".gdnlib"))
        c6ResolvedIn.projectDir = some pr ∧
      ((c6ResolvedIn.projectDir.comps <+:
          (c6ResolvedIn.outputDir.join (c6ResolvedIn.libName ++ ".gdnlib")).comps →
          pr.1 = "res://" ∧ pr.2.abs = false) ∧
        (¬ c6ResolvedIn.projectDir.comps <+:
          (c6ResolvedIn.outputDir.join (c6ResolvedIn.libName ++ ".gdnlib")).comps →
          pr.1 = "" ∧ pr.2 = c6ResolvedIn.outputDir.join (c6ResolvedIn.libName ++ ".gdnlib"))) ∧
      ∃ fs2, buildCore c6ResolvedIn ["T"] [] = .ok fs2 ∧
        fs2.readFile (c6ResolvedIn.outputDir.join ("T" ++ ".gdns")) =
          some (generateGdns pr.1 pr.2 "T") :=
  c6_gdns_reference c6ResolvedIn "T" rfl rfl rfl (by decide) [] rfl (by decide)

/-- C8 counterexample: the configured resource output directory fails to
canonicalize, yet resolution succeeds and substitutes project-root/native
for it, and the whole build proceeds instead of aborting. -/
theorem c8_counterexample :
    c8Builder.godot_resource_output_dir.bind c8Env.canonicalize = none ∧
    resolveConfig c8Builder c8Env =
      .ok ⟨"d", ⟨true, ["proj"]⟩, ⟨true, ["proj", "native"]⟩, ⟨true, ["proj", "target"]⟩,
        BuildMode.Debug⟩ ∧
    buildFull c8Builder c8Env [] [] = .ok c8FS ∧
    (⟨true, ["proj", "native"]⟩ : RPath) ≠ ⟨true, ["cfg", "out"]⟩ :=
  ⟨rfl, rfl, rfl, by decide⟩

/-- C8 amended: failure to canonicalize the project root is fatal; failure
to canonicalize the resource output directory silently falls back to
project-root/native; failure to canonicalize the target directory falls
back to environment-derived locations and is fatal only when those are
absent too. -/
theorem c8_canonicalization_policy (b : Builder) (env : Env) (ln : String) (pd : RPath)
    (cs : List String) (fs : FS) :
    (resolveLibName b env = .ok ln → b.godot_project_dir.bind env.canonicalize = none →
      buildFull b env cs fs = .error .projectDirMissing) ∧
    (b.godot_resource_output_dir.bind env.canonicalize = none →
      resolveOutputDir b env pd = pd.join "native") ∧
    (b.target_dir.bind env.canonicalize = none →
      env.cargoTargetDir.bind env.canonicalize = none →
      env.outDir = none →
      resolveTargetDir b env = .error .targetDirMissing) := by
  refine ⟨?_, ?_, ?_⟩
  · intro hl hp
    unfold buildFull resolveConfig resolveProjectDir
    rw [hl, hp]
  · intro h
    unfold resolveOutputDir
    rw [h]
    rfl
  · intro h1 h2 h3
    unfold resolveTargetDir
    rw [h1, h2, h3]
    rfl

/-- C8 witness: under an environment whose canonicalization fails on every
path, the build aborts on the project root, the output directory resolution
substitutes the root-relative native directory, and target resolution
aborts with no fallback. -/
theorem c8_canonicalization_policy_witness :
    buildFull c8Builder c8EnvAll [] [] = .error .projectDirMissing ∧
    resolveOutputDir c8Builder c8EnvAll ⟨true, ["p"]⟩ = ⟨true, ["p", "native"]⟩ ∧
    resolveTargetDir c8Builder c8EnvAll = .error .targetDirMissing :=
  ⟨(c8_canonicalization_policy c8Builder c8EnvAll "d" ⟨true, ["p"]⟩ [] []).1 rfl rfl,
   (c8_canonicalization_policy c8Builder c8EnvAll "d" ⟨true, ["p"]⟩ [] []).2.1 rfl,
   (c8_canonicalization_policy c8Builder c8EnvAll "d" ⟨true, ["p"]⟩ [] []).2.2 rfl rfl rfl⟩
